import Mathlib

/-!
Shallow embedding of the mmabrowser plugin core
(`resources/lib/sherdog.py` and `resources/lib/navigation.py`)
and proofs about the behaviour of its scraping and library-reconciliation
functions.  Python exceptions are modelled by `Option` (`none` = the
statement raised and the exception propagated); Python dictionaries whose
key sets are fixed are modelled by structures.
-/

/-- Python `s.rstrip(c)` for a single character `c`: remove every trailing
occurrence of `c`. -/
def rstripChar (c : Char) (s : String) : String :=
  ⟨(s.data.reverse.dropWhile (fun x => x = c)).reverse⟩

/-- Python `s.split(c)` for a single-character separator, on the character
list: split at every occurrence of the separator, keeping empty pieces. -/
def splitChar (sep : Char) : List Char → List (List Char)
  | [] => [[]]
  | c :: cs =>
    match splitChar sep cs with
    | [] => [[]]
    | t :: ts => if c = sep then [] :: t :: ts else (c :: t) :: ts

/-- Python `s.split(c)` for a single-character separator, on strings. -/
def pySplit (sep : Char) (s : String) : List String :=
  (splitChar sep s.data).map (fun cs => ⟨cs⟩)

/-- Python `"%.2d" % n` for a natural number: decimal, zero-padded to
width 2. -/
def pad2 (n : Nat) : String :=
  if n < 10 then "0" ++ toString n else toString n

/-- Python `int(s)` restricted to the non-negative case: succeeds exactly
on non-empty all-digit strings (sign, whitespace and underscore forms do
not occur in the inputs modelled here), raising `ValueError` (`none`)
otherwise. -/
def pyInt (s : String) : Option Nat :=
  if s.data = [] then none
  else if s.data.all Char.isDigit then
    some (s.data.foldl (fun n c => n * 10 + (c.toNat - 48)) 0)
  else none

/-- The fixed month-name table of `getEventDetails`
(sherdog.py lines 98-109). -/
def months : List (String × String) :=
  [("January", "01"), ("February", "02"), ("March", "03"), ("April", "04"),
   ("May", "05"), ("June", "06"), ("July", "07"), ("August", "08"),
   ("September", "09"), ("October", "10"), ("November", "11"),
   ("December", "12")]

/-- The date conversion of `getEventDetails` (sherdog.py lines 94-115):
`tempYear = tempDate.split(' ')[2]`, `tempMonth = months[tempDate.split(' ')[0]]`,
`tempDay = "%.2d" % int(tempDate.split(' ')[1].rstrip(','))`, composed as
`"%s-%s-%s" % (tempYear, tempMonth, tempDay)`.  A missing token
(IndexError), an unknown month name (KeyError) or a non-numeric day
(ValueError) raises, i.e. returns `none`. -/
def convertDate (tempDate : String) : Option String := do
  let toks := pySplit ' ' tempDate
  let tempYear ← toks.get? 2
  let monthName ← toks.get? 0
  let tempMonth ← months.lookup monthName
  let dayTok ← toks.get? 1
  let d ← pyInt (rstripChar ',' dayTok)
  pure (tempYear ++ "-" ++ tempMonth ++ "-" ++ pad2 d)

/-- A table cell (a BeautifulSoup td node) as used by the fight-card loop
of getEventDetails: its direct string content (`None` possible), the href
of its anchor (`none` models a missing anchor or missing attribute, whose
access raises), and its list of text nodes (`findAll(text=True)`). -/
structure Col where
  string : Option String
  aHref : Option String
  texts : List String
deriving DecidableEq, Repr

/-- One fightDetails dictionary as built by getEventDetails
(sherdog.py lines 154-179).  Keys set from a `.string` access may hold
Python `None`, hence `Option String`; fighter and winner keys are always
strings. -/
structure Fight where
  ID : Option String
  fighter1 : String
  fighter2 : String
  winner : String
  result : Option String
  round : Option String
  time : Option String
deriving DecidableEq, Repr

/-- Python `s.rsplit(sep, 1)[1]`: the part after the last occurrence of
the separator; `none` (IndexError) when the separator does not occur. -/
def rsplitLast (sep : Char) (s : String) : Option String :=
  if sep ∈ s.data then some ⟨(s.data.reverse.takeWhile (fun x => ¬ x = sep)).reverse⟩
  else none

/-- Parsing of one fight row by the loop body of getEventDetails
(sherdog.py lines 150-182); `cols` is `row.findAll('td')`.  `none` models
an exception escaping the row body (IndexError on a missing column or
text node, TypeError/KeyError on a missing anchor or href, IndexError
when an href has no hyphen). -/
def parseFightRow (cols : List Col) : Option Fight := do
  let c0 ← cols.get? 0
  let c1 ← cols.get? 1
  let h1 ← c1.aHref
  let f1 ← rsplitLast '-' h1
  let c3 ← cols.get? 3
  let h3 ← c3.aHref
  let f2 ← rsplitLast '-' h3
  let t1 ← c1.texts.get? 1
  let winner := if t1 = "Winner" then f1 else ""
  let c4 ← cols.get? 4
  let c5 ← cols.get? 5
  let c6 ← cols.get? 6
  pure { ID := c0.string, fighter1 := f1, fighter2 := f2, winner := winner,
         result := c4.string, round := c5.string, time := c6.string }

/-- The row loop of getEventDetails inside its single try block
(sherdog.py lines 137-189): rows are processed in order, each parsed
fight is appended; the first exception aborts the whole loop and the
fights accumulated so far are kept (the except clause swallows it). -/
def fightLoop : List (List Col) → List Fight → List Fight
  | [], acc => acc
  | row :: rest, acc =>
    match parseFightRow row with
    | none => acc
    | some f => fightLoop rest (acc ++ [f])

/-- The fights list built by getEventDetails: `none` for the table models
`soup.find` returning no fight_event_card table, in which case
`table.findAll` raises and the except clause leaves the list empty; the
first row of the table (the header) is skipped via rowcount. -/
def parseFights (table : Option (List (List Col))) : List Fight :=
  match table with
  | none => []
  | some [] => []
  | some (_ :: rest) => fightLoop rest []

/-- Whether column 1 of a fight row carries the Winner marker tested by
getEventDetails: its second text node is exactly the string Winner. -/
def winnerMarker (cols : List Col) : Bool :=
  match cols.get? 1 with
  | none => false
  | some c1 => c1.texts.get? 1 == some "Winner"

/-- A header row as found in the fight table (always skipped). -/
def sampleHeaderRow : List Col := []

/-- A well-formed fight row: fighter ids 111 and 222, fighter1 marked
Winner. -/
def sampleGoodRow : List Col :=
  [{ string := some "1", aHref := none, texts := [] },
   { string := none, aHref := some "/fighter/Alice-111", texts := ["Alice", "Winner"] },
   { string := none, aHref := none, texts := [] },
   { string := none, aHref := some "/fighter/Bob-222", texts := ["Bob"] },
   { string := some "KO", aHref := none, texts := [] },
   { string := some "1", aHref := none, texts := [] },
   { string := some "1:23", aHref := none, texts := [] }]

/-- The fight record parseFightRow extracts from sampleGoodRow. -/
def sampleGoodFight : Fight :=
  { ID := some "1", fighter1 := "111", fighter2 := "222", winner := "111",
    result := some "KO", round := some "1", time := some "1:23" }

/-- A malformed fight row: column 1 has no anchor, so the row body
raises. -/
def sampleBadRow : List Col :=
  [{ string := some "2", aHref := none, texts := [] },
   { string := none, aHref := none, texts := ["Carol"] }]

/-- A well-formed fight row whose round column text is not numeric. -/
def sampleNonNumericRow : List Col :=
  [{ string := some "3", aHref := none, texts := [] },
   { string := none, aHref := some "/fighter/Dave-333", texts := ["Dave", "Winner"] },
   { string := none, aHref := none, texts := [] },
   { string := none, aHref := some "/fighter/Erin-444", texts := ["Erin"] },
   { string := some "Decision", aHref := none, texts := [] },
   { string := some "N/A", aHref := none, texts := [] },
   { string := some "5:00", aHref := none, texts := [] }]

/-- The fight record parseFightRow extracts from sampleNonNumericRow:
the non-numeric round text is stored as-is. -/
def sampleNonNumericFight : Fight :=
  { ID := some "3", fighter1 := "333", fighter2 := "444", winner := "333",
    result := some "Decision", round := some "N/A", time := some "5:00" }

/-- A fight row in which both anchors carry the same fighter id. -/
def sampleEqualRow : List Col :=
  [{ string := some "4", aHref := none, texts := [] },
   { string := none, aHref := some "/fighter/Alice-7", texts := ["Alice", "Winner"] },
   { string := none, aHref := none, texts := [] },
   { string := none, aHref := some "/fighter/Alice-7", texts := ["Alice"] },
   { string := some "KO", aHref := none, texts := [] },
   { string := some "1", aHref := none, texts := [] },
   { string := some "1:23", aHref := none, texts := [] }]

/-- The fight record parseFightRow extracts from sampleEqualRow: both
fighter ids are 7. -/
def sampleEqualFight : Fight :=
  { ID := some "4", fighter1 := "7", fighter2 := "7", winner := "7",
    result := some "KO", round := some "1", time := some "1:23" }

/-- A fight row whose fighter1 href ends in a hyphen, making the
extracted fighter1 id empty while the Winner marker is present. -/
def sampleDashRow : List Col :=
  [{ string := some "5", aHref := none, texts := [] },
   { string := none, aHref := some "/fighter/Alice-", texts := ["Alice", "Winner"] },
   { string := none, aHref := none, texts := [] },
   { string := none, aHref := some "/fighter/Bob-8", texts := ["Bob"] },
   { string := some "KO", aHref := none, texts := [] },
   { string := some "1", aHref := none, texts := [] },
   { string := some "1:23", aHref := none, texts := [] }]

/-- A table cell of the fighter-profile table (a BeautifulSoup td node):
its direct string content (Python None possible) and the string of its
contained anchor (none models a missing anchor or a None string, whose
use raises). -/
structure Cell where
  string : Option String
  aString : Option String
deriving DecidableEq

/-- The parts of a fighter page read by getFighterDetails: the rows of
the span with id fighter_profile (none when the span is absent, in which
case `table.findAll` raises) and the img src of the span with id
fighter_picture (none when absent, in which case the per-row lookup
raises). -/
structure FighterPage where
  profileRows : Option (List (List Cell))
  pictureSrc : Option String
deriving DecidableEq

/-- The fighterDetails dictionary of getFighterDetails.  The thumbUrl key
is only ever written inside the row loop, so it is optional; all other
keys are written during initialisation. -/
structure FighterDict where
  ID : String
  name : String
  nickName : String
  association : String
  height : String
  weight : String
  birthDate : String
  city : String
  country : String
  thumbUrl : Option String
deriving DecidableEq

/-- The initialisation block of getFighterDetails (sherdog.py lines
220-230): ID and the eight descriptive text fields are set to the empty
string; no thumbUrl key is created. -/
def initFighterDetails : FighterDict :=
  { ID := "", name := "", nickName := "", association := "", height := "",
    weight := "", birthDate := "", city := "", country := "", thumbUrl := none }

/-- The label/value cleaning used by getFighterDetails:
`.rstrip(' ').rstrip('\n')`, i.e. trailing spaces removed, then trailing
newlines removed.  No leading whitespace is removed. -/
def rstrips (s : String) : String := rstripChar '\n' (rstripChar ' ' s)

/-- The body of the row loop of getFighterDetails (sherdog.py lines
247-289): read the first cell, skip the row when its string is None,
otherwise compare the right-stripped label against the eight recognised
labels and store the right-stripped second-cell value (for Association,
the anchor string); afterwards, unconditionally look up the
fighter_picture img src and store it as thumbUrl.  `none` models an
exception escaping the loop (and therefore the whole function, which has
no handler). -/
def processRow (pic : Option String) (fd : FighterDict) (row : List Cell) :
    Option FighterDict := do
  let c0 ← row.get? 0
  match c0.string with
  | none => pure fd
  | some lbl0 =>
    let lbl := rstrips lbl0
    let fd2 ←
      if lbl = "Name" then do
        let c1 ← row.get? 1
        let v ← c1.string
        pure { fd with name := rstrips v }
      else if lbl = "Nick Name" then do
        let c1 ← row.get? 1
        let v ← c1.string
        pure { fd with nickName := rstrips v }
      else if lbl = "Association" then do
        let c1 ← row.get? 1
        let v ← c1.aString
        pure { fd with association := rstrips v }
      else if lbl = "Height" then do
        let c1 ← row.get? 1
        let v ← c1.string
        pure { fd with height := rstrips v }
      else if lbl = "Weight" then do
        let c1 ← row.get? 1
        let v ← c1.string
        pure { fd with weight := rstrips v }
      else if lbl = "Birth Date" then do
        let c1 ← row.get? 1
        let v ← c1.string
        pure { fd with birthDate := rstrips v }
      else if lbl = "City" then do
        let c1 ← row.get? 1
        let v ← c1.string
        pure { fd with city := rstrips v }
      else if lbl = "Country" then do
        let c1 ← row.get? 1
        let v ← c1.string
        pure { fd with country := rstrips v }
      else pure fd
    let src ← pic
    pure { fd2 with thumbUrl := some src }

/-- getFighterDetails (sherdog.py lines 195-292) given the relevant page
content: initialise the dictionary, store the fighter ID, find the
profile table (raising when it is absent) and fold the row loop over its
rows.  `none` models an uncaught exception. -/
def getFighterDetails (fighterID : String) (page : FighterPage) :
    Option FighterDict := do
  let rows ← page.profileRows
  rows.foldlM (processRow page.pictureSrc) { initFighterDetails with ID := fighterID }

deriving instance DecidableEq for Except

/-- Outcome of one run of getHtml (sherdog.py lines 19-41): the value
returned (or the propagated read error) and whether client.close() was
executed. -/
structure FetchTrace where
  result : Except Unit String
  closed : Bool
deriving DecidableEq

/-- getHtml: `client = urlopen(url); data = client.read(); client.close();
return data`.  The function body has no try/finally, so an exception
raised by read() propagates immediately and the close() statement is
never reached. -/
def getHtml (readResult : Except Unit String) : FetchTrace :=
  match readResult with
  | Except.error e => { result := Except.error e, closed := false }
  | Except.ok data => { result := Except.ok data, closed := true }

/-- An event row as handed to getEvent by the metadata store. -/
structure EventRow where
  id : String
  title : String
  promotion : String
  date : String
  venue : String
  city : String
deriving DecidableEq

/-- Modelled from the spec: the positional row returned by
dbops.getEvent, whose code (resources/lib/databaseops.py) is not under
src/.  Section 3 of the spec fixes the EventRecord field order id, title,
promotion, date, venue, city, and navigation.py reads event[1] as the
title (line 71) and event[2] as the promotion (line 76), consistent with
that order. -/
def eventTuple (e : EventRow) : List String :=
  [e.id, e.title, e.promotion, e.date, e.venue, e.city]

/-- The outline string built by getEvent (navigation.py line 80):
`'%s: %s, %s' % (event[3], event[4], event[5])`. -/
def mkOutline (ev : List String) : String :=
  (ev.getD 3 "") ++ ": " ++ (ev.getD 4 "") ++ ", " ++ (ev.getD 5 "")

/-- The description resolution of getEvent (navigation.py lines 81-84):
the per-identifier description file when it can be read, else the
outline; the IOError of a missing file is caught. -/
def getDescription (ev : List String) (fileText : Option String) : String :=
  match fileText with
  | some t => t
  | none => mkOutline ev

/-- A concrete event row used in counterexamples. -/
def sampleEventRow : EventRow :=
  { id := "500", title := "UFC 100", promotion := "UFC", date := "2009-07-11",
    venue := "Mandalay Bay", city := "Las Vegas" }

/-- One vidFile dictionary of getEvent (navigation.py lines 88-95). -/
structure VidFile where
  filename : String
  ext : String
  path : String
  title : String
deriving DecidableEq

/-- The extension allow-list of getEvent (navigation.py line 96). -/
def videoExts : List String := [".mkv", ".mp4", ".flv", ".avi", ".iso", ".mpg", ".ts"]

/-- os.path.splitext on a bare filename, on the character list: split
before the last dot, unless every character before the last dot is a dot
(so leading dots never start an extension). -/
def splitextSplit (cs : List Char) : List Char × List Char :=
  let rev := cs.reverse
  let after := rev.takeWhile (fun c => !(c == '.'))
  let rest := rev.dropWhile (fun c => !(c == '.'))
  match rest with
  | [] => (cs, [])
  | _ :: before =>
    if before.all (fun c => c == '.') then (cs, [])
    else (before.reverse, '.' :: after.reverse)

/-- `os.path.splitext(name)[0]`. -/
def splitextRoot (name : String) : String := ⟨(splitextSplit name.data).1⟩

/-- `os.path.splitext(name)[1]`: the literal suffix including its leading
dot, case preserved. -/
def splitextExt (name : String) : String := ⟨(splitextSplit name.data).2⟩

/-- ASCII lower-casing of one character. -/
def lowerChar (c : Char) : Char :=
  if 65 ≤ c.toNat ∧ c.toNat ≤ 90 then Char.ofNat (c.toNat + 32) else c

/-- ASCII lower-casing of a string, used to express that an extension
differs from an allow-list entry only in letter case. -/
def lowerStr (s : String) : String := ⟨s.data.map lowerChar⟩

/-- Python `s.lstrip('0123456789. ')`: remove every leading character
that is a digit, a dot or a space. -/
def lstripClean (s : String) : String :=
  ⟨s.data.dropWhile (fun c => c.isDigit || c == '.' || c == ' ')⟩

/-- `os.path.join(root, vidFileName)` for the cases arising here. -/
def pathJoin (root name : String) : String :=
  if root = "" then name else root ++ "/" ++ name

/-- The per-file body of getEvent's walk (navigation.py lines 87-99):
build the vidFile dictionary, derive the title from the clean-filenames
setting, keep the file exactly when its literal extension is in the
allow-list. -/
def mkVid (clean : Bool) (root name : String) : Option VidFile :=
  let ext := splitextExt name
  let title := if clean then lstripClean (splitextRoot name) else name
  if ext ∈ videoExts then
    some { filename := name, ext := ext, path := pathJoin root name, title := title }
  else none

/-- The fileList built by getEvent's walk over the files of a directory,
in walk order. -/
def buildFileList (clean : Bool) (root : String) (files : List String) :
    List VidFile :=
  files.filterMap (mkVid clean root)

/-- Lexicographic code-point comparison of character lists, the order
Python uses to compare strings. -/
def charListLt : List Char → List Char → Bool
  | [], [] => false
  | [], _ :: _ => true
  | _ :: _, [] => false
  | a :: as, b :: bs =>
    if a.toNat < b.toNat then true
    else if b.toNat < a.toNat then false
    else charListLt as bs

/-- Python string comparison `a < b` on filenames. -/
def fnameLt (a b : String) : Bool := charListLt a.data b.data

/-- Stable insertion of a vidFile into a list sorted by filename. -/
def insertByFilename (v : VidFile) : List VidFile → List VidFile
  | [] => [v]
  | w :: ws =>
    if fnameLt w.filename v.filename then w :: insertByFilename v ws
    else v :: w :: ws

/-- The `sorted(fileList, key=lambda k: k['filename'])` of navigation.py
line 104: a stable sort by filename. -/
def sortByFilename (l : List VidFile) : List VidFile :=
  l.foldr insertByFilename []

/-- The boundary action of getEvent (navigation.py lines 100-105). -/
inductive PlayAction where
  | play : String → PlayAction
  | vlist : List VidFile → PlayAction
deriving DecidableEq

/-- The play-or-list decision of getEvent (navigation.py lines 100-105):
exactly one accepted file is played directly (`fileList[0]['path']`);
otherwise every accepted file is listed, sorted by filename. -/
def dispatch : List VidFile → PlayAction
  | [f] => PlayAction.play f.path
  | l => PlayAction.vlist (sortByFilename l)

theorem splitChar_ne_nil (sep : Char) (cs : List Char) : splitChar sep cs ≠ [] := by
  cases cs with
  | nil => simp [splitChar]
  | cons c cs =>
    simp only [splitChar]
    cases h : splitChar sep cs with
    | nil => simp
    | cons t ts => by_cases hc : c = sep <;> simp [hc]

theorem splitChar_no_sep {sep : Char} {cs : List Char} (h : sep ∉ cs) :
    splitChar sep cs = [cs] := by
  induction cs with
  | nil => rfl
  | cons c cs ih =>
    have hc : ¬ c = sep := fun e => h (e ▸ List.mem_cons_self c cs)
    have hcs : sep ∉ cs := fun e => h (List.mem_cons_of_mem c e)
    simp only [splitChar, ih hcs]
    simp [hc]

theorem splitChar_append {sep : Char} {xs : List Char} (ys : List Char)
    (h : sep ∉ xs) : splitChar sep (xs ++ sep :: ys) = xs :: splitChar sep ys := by
  induction xs with
  | nil =>
    simp only [List.nil_append, splitChar]
    cases hys : splitChar sep ys with
    | nil => exact absurd hys (splitChar_ne_nil sep ys)
    | cons t ts => simp
  | cons x xs ih =>
    have hx : ¬ x = sep := fun e => h (e ▸ List.mem_cons_self x xs)
    have hxs : sep ∉ xs := fun e => h (List.mem_cons_of_mem x e)
    simp only [List.cons_append, splitChar, List.append_eq]
    rw [ih hxs]
    simp [hx]

theorem pySplit_three (a b c : String) (ha : ' ' ∉ a.data) (hb : ' ' ∉ b.data)
    (hc : ' ' ∉ c.data) : pySplit ' ' (a ++ " " ++ b ++ " " ++ c) = [a, b, c] := by
  have hdata : (a ++ " " ++ b ++ " " ++ c).data
      = a.data ++ ' ' :: (b.data ++ ' ' :: c.data) := by
    simp [String.data_append]
  simp only [pySplit, hdata]
  rw [splitChar_append _ ha, splitChar_append _ hb, splitChar_no_sep hc]
  rfl

theorem dropWhile_eq_self_of_head {p : Char → Bool} {l : List Char}
    (h : ∀ x ∈ l, p x = false) : l.dropWhile p = l := by
  cases l with
  | nil => rfl
  | cons x xs => simp [List.dropWhile, h x (List.mem_cons_self x xs)]

theorem rstripChar_concat {c : Char} {s : String} (h : c ∉ s.data) :
    rstripChar c (s ++ ⟨[c]⟩) = s := by
  simp only [rstripChar, String.data_append, List.reverse_append]
  have : List.dropWhile (fun x => x = c) (c :: s.data.reverse)
      = List.dropWhile (fun x => x = c) s.data.reverse := by
    simp [List.dropWhile]
  simp only [List.reverse_cons, List.reverse_nil, List.nil_append,
    List.singleton_append, this]
  rw [dropWhile_eq_self_of_head, List.reverse_reverse]
  intro x hx
  have hxs : x ∈ s.data := List.mem_reverse.mp hx
  simp only [decide_eq_false_iff_not]
  exact fun e => h (e ▸ hxs)

theorem pyInt_all_digits {s : String} {d : Nat} (h : pyInt s = some d) :
    ∀ x ∈ s.data, x.isDigit = true := by
  unfold pyInt at h
  split at h
  · exact absurd h (by simp)
  · split at h
    · next hall => exact fun x hx => List.all_eq_true.mp hall x hx
    · exact absurd h (by simp)

theorem pyInt_no_space {s : String} {d : Nat} (h : pyInt s = some d) :
    ' ' ∉ s.data := fun hx => by
  have := pyInt_all_digits h ' ' hx
  simp [Char.isDigit] at this

theorem pyInt_no_comma {s : String} {d : Nat} (h : pyInt s = some d) :
    ',' ∉ s.data := fun hx => by
  have := pyInt_all_digits h ',' hx
  simp [Char.isDigit] at this

theorem lookup_mem_pairs {l : List (String × String)} {a v : String}
    (h : l.lookup a = some v) : (a, v) ∈ l := by
  induction l with
  | nil => simp [List.lookup] at h
  | cons p l ih =>
    rw [List.lookup_cons] at h
    split at h
    · next heq =>
      have ha : a = p.1 := eq_of_beq heq
      have hv : v = p.2 := by injection h with h2; exact h2.symm
      have : (a, v) = p := by rw [ha, hv]
      rw [this]
      exact List.mem_cons_self _ _
    · next heq =>
      exact List.mem_cons_of_mem p (ih h)

theorem months_key_no_space {mName mm : String}
    (h : months.lookup mName = some mm) : ' ' ∉ mName.data := by
  have hm := lookup_mem_pairs h
  fin_cases hm <;> decide

/-- C2: for every event-page date text of the form "Month D, YYYY" or
"Month DD, YYYY" (month name in the 12-entry table, day and year decimal
digit strings), the date conversion of getEventDetails produces exactly
"YYYY-MM-DD" with the day zero-padded to two digits; for any month name
not in the table it fails (the KeyError propagates) rather than producing
a result. -/
theorem convertDate_spec (mName mm ds ys : String) (d y : Nat) :
    (months.lookup mName = some mm → pyInt ds = some d → pyInt ys = some y →
      convertDate (mName ++ " " ++ ds ++ ", " ++ ys)
        = some (ys ++ "-" ++ mm ++ "-" ++ pad2 d))
    ∧ (months.lookup mName = none → ' ' ∉ mName.data → ' ' ∉ ds.data →
        ' ' ∉ ys.data →
      convertDate (mName ++ " " ++ ds ++ ", " ++ ys) = none) := by
  have hshape : mName ++ " " ++ ds ++ ", " ++ ys
      = mName ++ " " ++ (ds ++ ",") ++ " " ++ ys := by
    apply String.ext
    simp [String.data_append]
  constructor
  · intro hlook hds hys
    have hmsp : ' ' ∉ mName.data := months_key_no_space hlook
    have hdsp : ' ' ∉ ds.data := pyInt_no_space hds
    have hdc : ',' ∉ ds.data := pyInt_no_comma hds
    have hbsp : ' ' ∉ (ds ++ ",").data := by
      simp only [String.data_append, List.mem_append]
      rintro (hx | hx)
      · exact hdsp hx
      · simp at hx
    have hysp : ' ' ∉ ys.data := pyInt_no_space hys
    rw [hshape]
    have hsplit := pySplit_three mName (ds ++ ",") ys hmsp hbsp hysp
    have hstrip : rstripChar ',' (ds ++ ",") = ds := rstripChar_concat hdc
    simp [convertDate, hsplit, hlook, hstrip, hds]
  · intro hlook hmsp hdsp hysp
    have hbsp : ' ' ∉ (ds ++ ",").data := by
      simp only [String.data_append, List.mem_append]
      rintro (hx | hx)
      · exact hdsp hx
      · simp at hx
    rw [hshape]
    have hsplit := pySplit_three mName (ds ++ ",") ys hmsp hbsp hysp
    simp [convertDate, hsplit, hlook]

theorem fightLoop_append_abort (rows1 rows2 : List (List Col))
    (bad : List Col) (acc : List Fight)
    (h1 : ∀ r ∈ rows1, (parseFightRow r).isSome)
    (hbad : parseFightRow bad = none) :
    fightLoop (rows1 ++ bad :: rows2) acc = acc ++ rows1.filterMap parseFightRow := by
  induction rows1 generalizing acc with
  | nil => simp [fightLoop, hbad]
  | cons r rs ih =>
    obtain ⟨f, hf⟩ := Option.isSome_iff_exists.mp (h1 r (List.mem_cons_self r rs))
    simp only [List.cons_append, fightLoop, hf, List.append_eq]
    rw [ih]
    · simp [List.filterMap_cons, hf]
    · exact fun x hx => h1 x (List.mem_cons_of_mem r hx)

/-- C1 (amended): a parse exception in a fight row is swallowed but
aborts the whole row loop: the rows parsed before the malformed row are
returned, the malformed row and every row after it are dropped, and the
function itself never raises. -/
theorem parseFights_row_exception (header bad : List Col)
    (rows1 rows2 : List (List Col))
    (h1 : ∀ r ∈ rows1, (parseFightRow r).isSome)
    (hbad : parseFightRow bad = none) :
    parseFights (some (header :: (rows1 ++ bad :: rows2)))
      = rows1.filterMap parseFightRow := by
  simp only [parseFights]
  exact (fightLoop_append_abort rows1 rows2 bad [] h1 hbad).trans (by simp)

/-- Witness for parseFights_row_exception at a concrete fight table. -/
theorem parseFights_row_exception_witness :
    parseFights (some [sampleHeaderRow, sampleGoodRow, sampleBadRow, sampleGoodRow])
      = [sampleGoodFight] := by
  have h := parseFights_row_exception sampleHeaderRow sampleBadRow
    [sampleGoodRow] [sampleGoodRow] (by decide) (by decide)
  exact h.trans (by decide)

/-- C1 counterexample: in the table [header, malformed row, well-formed
row] the well-formed row is lost, although on its own it parses; and a
row whose round column is non-numeric is not skipped but returned with
the raw round text, contradicting the claim. -/
theorem parseFights_claim_false :
    parseFights (some [sampleHeaderRow, sampleBadRow, sampleGoodRow]) = []
    ∧ parseFightRow sampleGoodRow = some sampleGoodFight
    ∧ parseFights (some [sampleHeaderRow, sampleNonNumericRow])
      = [sampleNonNumericFight]
    ∧ sampleNonNumericFight.round = some "N/A" := by
  refine ⟨by decide, by decide, by decide, by decide⟩

/-- C8 (amended): every fight record the row parser produces has winner
equal to fighter1 when the Winner marker is the second text node of
column 1 and the empty string otherwise; hence winner is always
fighter1 or empty.  Nothing enforces fighter1 to differ from
fighter2. -/
theorem parseFightRow_winner (cols : List Col) (f : Fight)
    (h : parseFightRow cols = some f) :
    f.winner = (if winnerMarker cols then f.fighter1 else "")
    ∧ (f.winner = f.fighter1 ∨ f.winner = "") := by
  simp only [parseFightRow, Option.bind_eq_bind, Option.bind_eq_some,
    Option.pure_def, Option.some.injEq] at h
  obtain ⟨c0, hc0, c1, hc1, h1, hh1, f1, hf1, c3, hc3, h3, hh3, f2, hf2,
    t1, ht1, c4, hc4, c5, hc5, c6, hc6, hf⟩ := h
  subst hf
  constructor
  · simp only [winnerMarker, hc1, ht1]
    by_cases ht : t1 = "Winner" <;> simp [ht]
  · by_cases ht : t1 = "Winner" <;> simp [ht]

/-- Witness for parseFightRow_winner at a concrete row. -/
theorem parseFightRow_winner_witness :
    sampleGoodFight.winner
      = (if winnerMarker sampleGoodRow then sampleGoodFight.fighter1 else "")
    ∧ (sampleGoodFight.winner = sampleGoodFight.fighter1
        ∨ sampleGoodFight.winner = "") :=
  parseFightRow_winner sampleGoodRow sampleGoodFight (by decide)

/-- C8 counterexample: the row parser happily produces a record whose two
fighter ids are equal, and a record whose Winner marker is present while
the winner field is the empty string (the href ends in a hyphen), so the
claimed invariant fails. -/
theorem parseFightRow_invariant_false :
    parseFightRow sampleEqualRow = some sampleEqualFight
    ∧ sampleEqualFight.fighter1 = sampleEqualFight.fighter2
    ∧ (parseFightRow sampleDashRow).map Fight.winner = some ""
    ∧ winnerMarker sampleDashRow = true := by
  refine ⟨by decide, by decide, by decide, by decide⟩

/-- Witness for convertDate_spec at the concrete inputs of the claim. -/
theorem convertDate_spec_witness :
    convertDate "March 4, 2009" = some "2009-03-04"
    ∧ convertDate "March 14, 2009" = some "2009-03-14"
    ∧ convertDate "Smarch 4, 2009" = none := by
  refine ⟨?_, ?_, ?_⟩
  · have h := (convertDate_spec "March" "03" "4" "2009" 4 2009).1
      (by decide) (by decide) (by decide)
    have e : "March 4, 2009" = "March" ++ " " ++ "4" ++ ", " ++ "2009" := by decide
    rw [e]
    exact h.trans (by decide)
  · have h := (convertDate_spec "March" "03" "14" "2009" 14 2009).1
      (by decide) (by decide) (by decide)
    have e : "March 14, 2009" = "March" ++ " " ++ "14" ++ ", " ++ "2009" := by decide
    rw [e]
    exact h.trans (by decide)
  · have h := (convertDate_spec "Smarch" "" "4" "2009" 4 2009).2
      (by decide) (by decide) (by decide) (by decide)
    have e : "Smarch 4, 2009" = "Smarch" ++ " " ++ "4" ++ ", " ++ "2009" := by decide
    rw [e]
    exact h

/-- C3 (amended): getFighterDetails initialises ID and the eight
descriptive text fields to the empty string, but creates no thumbUrl key;
and when the fighter-info table is entirely absent from the page the
function raises (the AttributeError of table.findAll propagates) instead
of returning the record with its defaults. -/
theorem getFighterDetails_defaults :
    (initFighterDetails.ID = "" ∧ initFighterDetails.name = ""
      ∧ initFighterDetails.nickName = "" ∧ initFighterDetails.association = ""
      ∧ initFighterDetails.height = "" ∧ initFighterDetails.weight = ""
      ∧ initFighterDetails.birthDate = "" ∧ initFighterDetails.city = ""
      ∧ initFighterDetails.country = "" ∧ initFighterDetails.thumbUrl = none)
    ∧ ∀ (fid : String) (page : FighterPage), page.profileRows = none →
        getFighterDetails fid page = none := by
  refine ⟨by decide, ?_⟩
  intro fid page h
  simp [getFighterDetails, h]

/-- Witness for getFighterDetails_defaults at a concrete page with no
profile table. -/
theorem getFighterDetails_defaults_witness :
    getFighterDetails "42" { profileRows := none, pictureSrc := some "img" } = none :=
  getFighterDetails_defaults.2 "42" { profileRows := none, pictureSrc := some "img" } rfl

/-- C3 counterexample: on a page without the fighter-info table,
getFighterDetails raises (models to none) instead of returning the
initialised record, so the claim that it returns the empty-string
defaults without any top-level failure is false; moreover the
initialisation leaves no thumbUrl value at all rather than an empty
string. -/
theorem getFighterDetails_claim_false :
    getFighterDetails "42" { profileRows := none, pictureSrc := some "img" } ≠
      some { initFighterDetails with ID := "42" }
    ∧ getFighterDetails "42" { profileRows := none, pictureSrc := some "img" } = none
    ∧ initFighterDetails.thumbUrl ≠ some "" := by
  refine ⟨by decide, by decide, by decide⟩

/-- C5 (amended): the label matching of getFighterDetails strips only
trailing spaces and then trailing newlines from the first-cell label and
compares for exact equality with the fixed label set: a label with
trailing whitespace such as "Name " populates name, a label with leading
whitespace such as " Name " matches nothing and the row only refreshes
thumbUrl, and the unrecognised label "Nickname" is likewise ignored. -/
theorem processRow_label_match (fd : FighterDict) (v pic : String) :
    processRow (some pic) fd
        [{ string := some "Name ", aString := none },
         { string := some v, aString := none }]
      = some { fd with name := rstrips v, thumbUrl := some pic }
    ∧ processRow (some pic) fd
        [{ string := some " Name ", aString := none },
         { string := some v, aString := none }]
      = some { fd with thumbUrl := some pic }
    ∧ processRow (some pic) fd
        [{ string := some "Nickname", aString := none },
         { string := some v, aString := none }]
      = some { fd with thumbUrl := some pic } := by
  refine ⟨?_, ?_, ?_⟩ <;> simp [processRow, rstrips, rstripChar]

/-- C5 counterexample: a fighter page whose single profile row is
labelled " Name " (leading space) does not populate the name field: the
returned record has name equal to the empty string, not "John". -/
theorem fighterLabel_claim_false :
    getFighterDetails "9"
        { profileRows := some [[{ string := some " Name ", aString := none },
                                { string := some "John", aString := none }]],
          pictureSrc := some "img" }
      = some { initFighterDetails with ID := "9", thumbUrl := some "img" }
    ∧ ({ initFighterDetails with ID := "9", thumbUrl := some "img" } : FighterDict).name
        = "" := by
  refine ⟨by decide, by decide⟩

/-- C4 (amended): getHtml returns the body read from the connection and
closes the connection exactly when the read succeeds; when the read
raises, the error propagates and the connection is never closed (there is
no try/finally around the read). -/
theorem getHtml_close (readResult : Except Unit String) :
    (getHtml readResult).result = readResult
    ∧ ((getHtml readResult).closed = true ↔ ∃ d, readResult = Except.ok d) := by
  cases readResult <;> simp [getHtml]

/-- C4 counterexample: on a failing read, getHtml propagates the error
with the connection left open, so the claim that every exit path closes
the connection is false. -/
theorem getHtml_claim_false :
    getHtml (Except.error ()) = { result := Except.error (), closed := false } := by
  decide

/-- C6 (amended): when the per-identifier description file is absent,
getEvent falls back to the synthesized one-line summary built from
positions 3, 4 and 5 of the event row, which under the spec's field
order are the date, venue and city (not the promotion); the missing file
is caught (IOError) and never propagates. -/
theorem getEvent_description_fallback (e : EventRow) (fileText : Option String) :
    getDescription (eventTuple e) none = e.date ++ ": " ++ e.venue ++ ", " ++ e.city
    ∧ (fileText.isSome → getDescription (eventTuple e) fileText = fileText.getD "") := by
  constructor
  · simp [getDescription, mkOutline, eventTuple]
  · intro h
    obtain ⟨t, ht⟩ := Option.isSome_iff_exists.mp h
    simp [getDescription, ht]

/-- Witness for getEvent_description_fallback at a concrete event row and
a present description file. -/
theorem getEvent_description_fallback_witness :
    getDescription (eventTuple sampleEventRow) (some "stored text") = "stored text" := by
  have h := (getEvent_description_fallback sampleEventRow (some "stored text")).2 (by decide)
  exact h.trans (by decide)

/-- C6 counterexample: for a concrete event row the fallback description
is "date: venue, city", not the "promotion: venue, city" stated by the
claim. -/
theorem getEvent_description_claim_false :
    getDescription (eventTuple sampleEventRow) none
      = "2009-07-11: Mandalay Bay, Las Vegas"
    ∧ getDescription (eventTuple sampleEventRow) none
      ≠ sampleEventRow.promotion ++ ": " ++ sampleEventRow.venue ++ ", "
          ++ sampleEventRow.city := by
  refine ⟨by decide, by decide⟩

/-- C7: for a directory containing exactly the files 02. Fight.mkv,
01. Fight.mkv and readme.txt, with clean filenames enabled, the walk
accepts exactly the two mkv files (readme.txt has extension .txt, not in
the allow-list), both get displayTitle "Fight" (extension stripped, then
leading digits, dots and spaces stripped), and the listing is sorted by
filename with 01. Fight.mkv first. -/
theorem reconciler_example :
    dispatch (buildFileList true "" ["02. Fight.mkv", "01. Fight.mkv", "readme.txt"])
      = PlayAction.vlist
        [{ filename := "01. Fight.mkv", ext := ".mkv", path := "01. Fight.mkv",
           title := "Fight" },
         { filename := "02. Fight.mkv", ext := ".mkv", path := "02. Fight.mkv",
           title := "Fight" }] := by
  decide

/-- C9: getEvent plays a file directly exactly when the walk accepted a
single video file, and produces the sorted listing whenever the accepted
count differs from one. -/
theorem dispatch_single_play (fl : List VidFile) :
    (∀ v, fl = [v] → dispatch fl = PlayAction.play v.path)
    ∧ (fl.length ≠ 1 → dispatch fl = PlayAction.vlist (sortByFilename fl))
    ∧ ((∃ p, dispatch fl = PlayAction.play p) ↔ fl.length = 1) := by
  cases fl with
  | nil => simp [dispatch]
  | cons a t =>
    cases t with
    | nil => simp [dispatch]
    | cons b t2 => simp [dispatch]

/-- Witness for dispatch_single_play at a singleton and at an empty file
list. -/
theorem dispatch_single_play_witness :
    dispatch [{ filename := "a.mkv", ext := ".mkv", path := "/r/a.mkv",
                title := "a.mkv" }]
      = PlayAction.play "/r/a.mkv"
    ∧ dispatch [] = PlayAction.vlist [] := by
  constructor
  · exact (dispatch_single_play _).1 _ rfl
  · have h := (dispatch_single_play ([] : List VidFile)).2.1 (by decide)
    exact h.trans (by decide)

/-- C10: the walk classifies a file by its literal splitext suffix,
leading dot included, compared case-sensitively against the fixed
allow-list; a filename whose extension matches the list only up to
letter case is rejected and appears nowhere in the file list. -/
theorem extension_case_sensitive (clean : Bool) (root : String)
    (files : List String) (name : String)
    ( _hlow : lowerStr (splitextExt name) ∈ videoExts)
    (hnot : splitextExt name ∉ videoExts) :
    name ∉ (buildFileList clean root files).map VidFile.filename
    ∧ ∀ nm, (mkVid clean root nm).isSome ↔ splitextExt nm ∈ videoExts := by
  constructor
  · intro hmem
    obtain ⟨v, hv, hfn⟩ := List.mem_map.mp hmem
    obtain ⟨nm, hnm, hmk⟩ := List.mem_filterMap.mp hv
    simp only [mkVid] at hmk
    by_cases hin : splitextExt nm ∈ videoExts
    · rw [if_pos hin] at hmk
      injection hmk with h2
      apply hnot
      rw [← hfn, ← h2]
      exact hin
    · rw [if_neg hin] at hmk
      exact absurd hmk (by simp)
  · intro nm
    simp only [mkVid]
    by_cases hin : splitextExt nm ∈ videoExts
    · simp [hin]
    · simp [hin]

/-- Witness for extension_case_sensitive: Event.MKV has literal extension
.MKV, whose lower-cased form is in the allow-list but which itself is
not, so the file appears nowhere in the built file list. -/
theorem extension_case_sensitive_witness :
    "Event.MKV" ∉ (buildFileList false "" ["Event.MKV"]).map VidFile.filename :=
  (extension_case_sensitive false "" ["Event.MKV"] "Event.MKV"
    (by decide) (by decide)).1
